import Mathlib

/-!
Shallow embedding of the event-manage backend: the in-memory express server,
the database-backed express server (both concatenated in
`src/backend/src/mockData.ts`) and the cascading delete declared in
`src/backend/schema.sql`.  Request bodies and query parameters are modelled as
records of `Option String` (`some v` = key present with string value `v`,
`none` = key absent); the fresh `uuidv4()` value and the server clock are
passed as explicit arguments; database rows live in a `Store` in insertion
order, and each SQL statement is interpreted over that list.
-/

set_option maxHeartbeats 800000

namespace EventManage

/-- An event row: `interface Event` of `mockData.ts`, equally the columns of
the `events` table that the db server's queries select. -/
structure Event where
  id : String
  title : String
  description : String
  date : String
  location : String
  imageUrl : String
  deriving Repr, DecidableEq, Inhabited

/-- A registration row: `interface Registration` of `mockData.ts`, equally the
columns of the `registrations` table. -/
structure Registration where
  id : String
  eventId : String
  name : String
  email : String
  registeredAt : String
  deriving Repr, DecidableEq, Inhabited

/-- The server state: the `events` and `registrations` arrays of `mockData.ts`
(equally, the rows of the two tables of `schema.sql`), in insertion order. -/
structure Store where
  events : List Event
  registrations : List Registration
  deriving Repr, DecidableEq, Inhabited

/-- JavaScript truthiness test `!x` on an optional string field: true when the
field is absent (undefined or null) or is the empty string. -/
def falsy : Option String → Bool
  | none => true
  | some s => s == ""

/-- An HTTP response: `ok status payload` for a JSON payload sent with the
given status, `err status msg` for an error reply carrying a JSON error
message. -/
inductive Resp (α : Type) where
  | ok (status : Nat) (payload : α)
  | err (status : Nat) (msg : String)
  deriving Repr, DecidableEq

/-- A JSON body for event creation or update: each key of the `Event` shape,
present or absent. -/
structure EventBody where
  id : Option String
  title : Option String
  description : Option String
  date : Option String
  location : Option String
  imageUrl : Option String
  deriving Repr, DecidableEq

/-- A JSON body for registration creation. -/
structure RegBody where
  name : Option String
  email : Option String
  deriving Repr, DecidableEq

/-! ## In-memory server (first server file of `mockData.ts`) -/

/-- Route `GET /api/events`, in-memory server: `res.json(events)` — the array as
stored, no ordering applied. -/
def memListEvents (s : Store) : List Event :=
  s.events

/-- Route `GET /api/events/:id`, in-memory server. -/
def memGetEvent (s : Store) (id : String) : Resp Event :=
  match s.events.find? (fun e => e.id == id) with
  | none => .err 404 "Event not found"
  | some e => .ok 200 e

/-- Route `POST /api/events/:id/register`, in-memory server: the existence check
runs before the name/email validation; `newId` models `uuidv4()` and `now`
models `new Date().toISOString()`. -/
def memRegister (s : Store) (id : String) (body : RegBody) (newId now : String) :
    Resp Registration × Store :=
  match s.events.find? (fun e => e.id == id) with
  | none => (.err 404 "Event not found", s)
  | some event =>
      if falsy body.name || falsy body.email then
        (.err 400 "Name and email are required", s)
      else
        let r : Registration :=
          { id := newId, eventId := event.id, name := body.name.getD "",
            email := body.email.getD "", registeredAt := now }
        (.ok 201 r, { s with registrations := s.registrations ++ [r] })

/-- Route `POST /api/events`, in-memory server; `newId` models `uuidv4()`.  The
stored description is `description || ''`, which for an optional string field
coincides with defaulting the absent value to the empty string. -/
def memCreateEvent (s : Store) (body : EventBody) (newId : String) :
    Resp Event × Store :=
  if falsy body.title || falsy body.date || falsy body.location || falsy body.imageUrl then
    (.err 400 "Title, date, location, and imageUrl are required", s)
  else
    let e : Event :=
      { id := newId, title := body.title.getD "", description := body.description.getD "",
        date := body.date.getD "", location := body.location.getD "",
        imageUrl := body.imageUrl.getD "" }
    (.ok 201 e, { s with events := s.events ++ [e] })

/-- The object spread of the in-memory update handler: every key present in
the body overwrites, every absent key keeps the old value, and the `id` key is
reassigned to the old id after the spread. -/
def spreadUpdate (old : Event) (body : EventBody) : Event :=
  { id := old.id,
    title := body.title.getD old.title,
    description := body.description.getD old.description,
    date := body.date.getD old.date,
    location := body.location.getD old.location,
    imageUrl := body.imageUrl.getD old.imageUrl }

/-- Route `PUT /api/events/:id`, in-memory server: `findIndex`, 404 when `-1`, else
in-place assignment of the spread-updated event. -/
def memUpdateEvent (s : Store) (id : String) (body : EventBody) :
    Resp Event × Store :=
  match s.events.findIdx? (fun e => e.id == id) with
  | none => (.err 404 "Event not found", s)
  | some i =>
      let updated := spreadUpdate (s.events.getD i default) body
      (.ok 200 updated, { s with events := s.events.set i updated })

/-- Route `GET /api/events/:id/registrations`, in-memory server: a filter of the
stored array, no ordering applied. -/
def memListRegistrations (s : Store) (id : String) : Resp (List Registration) :=
  match s.events.find? (fun e => e.id == id) with
  | none => .err 404 "Event not found"
  | some event => .ok 200 (s.registrations.filter (fun r => r.eventId == event.id))

/-! ## Database-backed server (second server file of `mockData.ts`)

A `SELECT ... WHERE id = $1` is the filter of the rows by that id; an
`ORDER BY` is a sort of the selected rows by the named column (timestamps are
modelled as strings whose lexicographic order is the column's order). -/

/-- Lexicographic comparison of character lists.  ISO-8601 timestamps of equal
shape compare chronologically in this order, so it models the column order
used by `ORDER BY` on the timestamp columns. -/
def charListLe : List Char → List Char → Bool
  | [], _ => true
  | _ :: _, [] => false
  | a :: as, b :: bs => if a = b then charListLe as bs else decide (a < b)

/-- Lexicographic order on the timestamp strings of the model. -/
def strLe (a b : String) : Bool :=
  charListLe a.data b.data

/-- Route `GET /api/events`, db server: `SELECT ... FROM events ORDER BY date ASC`. -/
def dbListEvents (s : Store) : List Event :=
  List.insertionSort (fun a b => strLe a.date b.date = true) s.events

/-- Route `GET /api/events/:id`, db server. -/
def dbGetEvent (s : Store) (id : String) : Resp Event :=
  match s.events.filter (fun e => e.id == id) with
  | [] => .err 404 "Event not found"
  | e :: _ => .ok 200 e

/-- Route `POST /api/events/:id/register`, db server: here the name/email validation
runs before the existence check (the opposite order of the in-memory server).
The inserted row's `registered_at` takes the column default `now`; the JSON
reply repeats the inserted values. -/
def dbRegister (s : Store) (id : String) (body : RegBody) (newId now : String) :
    Resp Registration × Store :=
  if falsy body.name || falsy body.email then
    (.err 400 "Name and email are required", s)
  else if (s.events.filter (fun e => e.id == id)).isEmpty then
    (.err 404 "Event not found", s)
  else
    let r : Registration :=
      { id := newId, eventId := id, name := body.name.getD "",
        email := body.email.getD "", registeredAt := now }
    (.ok 201 r, { s with registrations := s.registrations ++ [r] })

/-- Route `POST /api/events`, db server: same validation and defaulting as the
in-memory server, row appended by `INSERT`. -/
def dbCreateEvent (s : Store) (body : EventBody) (newId : String) :
    Resp Event × Store :=
  if falsy body.title || falsy body.date || falsy body.location || falsy body.imageUrl then
    (.err 400 "Title, date, location, and imageUrl are required", s)
  else
    let e : Event :=
      { id := newId, title := body.title.getD "", description := body.description.getD "",
        date := body.date.getD "", location := body.location.getD "",
        imageUrl := body.imageUrl.getD "" }
    (.ok 201 e, { s with events := s.events ++ [e] })

/-- One row under the db `UPDATE` statement's SET list: each column is
`COALESCE(param, column)`, so a null (absent) parameter keeps the old column;
the `id` column is not in the SET list and the body's `id` key is never read. -/
def coalesceUpdate (old : Event) (body : EventBody) : Event :=
  { id := old.id,
    title := body.title.getD old.title,
    description := body.description.getD old.description,
    date := body.date.getD old.date,
    location := body.location.getD old.location,
    imageUrl := body.imageUrl.getD old.imageUrl }

/-- Route `PUT /api/events/:id`, db server: `UPDATE ... WHERE id = $6 RETURNING ...`;
404 when no row matched, else every matching row is coalesce-updated and the
returned row is echoed. -/
def dbUpdateEvent (s : Store) (id : String) (body : EventBody) :
    Resp Event × Store :=
  match s.events.filter (fun e => e.id == id) with
  | [] => (.err 404 "Event not found", s)
  | old :: _ =>
      (.ok 200 (coalesceUpdate old body),
        { s with events := s.events.map (fun e => if e.id == id then coalesceUpdate e body else e) })

/-- Route `GET /api/events/:id/registrations`, db server: existence check, then
`SELECT ... WHERE event_id = $1 ORDER BY registered_at DESC`. -/
def dbListRegistrations (s : Store) (id : String) : Resp (List Registration) :=
  if (s.events.filter (fun e => e.id == id)).isEmpty then
    .err 404 "Event not found"
  else
    .ok 200 (List.insertionSort (fun a b => strLe b.registeredAt a.registeredAt = true)
      (s.registrations.filter (fun r => r.eventId == id)))

/-- Statement `DELETE FROM events WHERE id = $1` under `schema.sql`: the matching event
rows are removed and, by `ON DELETE CASCADE` on `registrations.event_id`,
every registration whose `event_id` references a removed row is removed with
them.  No route of either server exposes this; it is the schema's declared
cascade. -/
def dbDeleteEvent (s : Store) (id : String) : Store :=
  let deleted := s.events.filter (fun e => e.id == id)
  { events := s.events.filter (fun e => e.id != id),
    registrations := s.registrations.filter (fun r => !deleted.any (fun e => e.id == r.eventId)) }

/-! ## Upload broker (identical in both server files) -/

/-- JavaScript `s.split(c)` for a single-character separator, on the character
list of the string: splitting never yields the empty list, and splitting a
string without the separator yields the one-element list. -/
def splitOnChar (c : Char) : List Char → List (List Char)
  | [] => [[]]
  | x :: xs =>
      if x = c then
        [] :: splitOnChar c xs
      else
        match splitOnChar c xs with
        | [] => [[x]]
        | y :: ys => (x :: y) :: ys

/-- Key-extension expression of the upload handler — split the file name on the
dot character and take the last component. -/
def splitPop (s : String) : String :=
  String.mk ((splitOnChar '.' s.data).getLastD [])

/-- The `PutObjectCommand` the signed URL is produced from, together with the
`expiresIn` option of `getSignedUrl`: the write credential, scoped to one
bucket/key/content type and one expiry. -/
structure PutCredential where
  bucket : String
  key : String
  contentType : String
  expiresIn : Nat
  deriving Repr, DecidableEq

/-- The JSON payload of the presigned-url route: the signed upload URL
(modelled as the credential it embeds), the eventual public read URL and the
storage key. -/
structure UploadGrant where
  uploadUrl : PutCredential
  publicUrl : String
  key : String
  deriving Repr, DecidableEq

/-- Route `GET /api/uploads/presigned-url` (the same handler text in both servers);
`freshId` models `uuidv4()`, `bucket` and `domain` the `S3_BUCKET` and
`CLOUDFRONT_DOMAIN` environment values. -/
def getPresignedUrl (bucket domain : String) (fileName fileType : Option String)
    (freshId : String) : Resp UploadGrant :=
  if falsy fileName || falsy fileType then
    .err 400 "fileName and fileType query params are required"
  else
    let ext := splitPop (fileName.getD "")
    let key := "uploads/" ++ freshId ++ "." ++ ext
    .ok 200
      { uploadUrl :=
          { bucket := bucket, key := key, contentType := fileType.getD "",
            expiresIn := 300 },
        publicUrl := "https://" ++ domain ++ "/" ++ key,
        key := key }

/-! ## The API surface as a step function on the store -/

/-- The routes of the API.  Neither server has a delete route; cascading
deletion exists only as the schema's `ON DELETE CASCADE`. -/
inductive ApiOp where
  | listEvents
  | getEvent (id : String)
  | registerFor (id : String) (body : RegBody) (newId now : String)
  | createEvent (body : EventBody) (newId : String)
  | updateEvent (id : String) (body : EventBody)
  | listRegistrations (id : String)
  | presign (fileName fileType : Option String) (freshId : String)

/-- The store after one request to the in-memory server. -/
def memApply : ApiOp → Store → Store
  | .listEvents, s => s
  | .getEvent _, s => s
  | .registerFor id body newId now, s => (memRegister s id body newId now).2
  | .createEvent body newId, s => (memCreateEvent s body newId).2
  | .updateEvent id body, s => (memUpdateEvent s id body).2
  | .listRegistrations _, s => s
  | .presign _ _ _, s => s

/-- The store after one request to the db server. -/
def dbApply : ApiOp → Store → Store
  | .listEvents, s => s
  | .getEvent _, s => s
  | .registerFor id body newId now, s => (dbRegister s id body newId now).2
  | .createEvent body newId, s => (dbCreateEvent s body newId).2
  | .updateEvent id body, s => (dbUpdateEvent s id body).2
  | .listRegistrations _, s => s
  | .presign _ _ _, s => s

/-! ## Concrete fixtures used by counterexamples and witnesses -/

/-- A create body whose date sorts later. -/
def exBodyLate : EventBody :=
  { id := none, title := some "A", description := none, date := some "b",
    location := some "L", imageUrl := some "u" }

/-- A create body whose date sorts earlier. -/
def exBodyEarly : EventBody :=
  { id := none, title := some "B", description := none, date := some "a",
    location := some "L", imageUrl := some "u" }

/-- The store reached from the empty store by creating the late-dated event
and then the early-dated one through the in-memory create route. -/
def exStoreUnsorted : Store :=
  (memCreateEvent (memCreateEvent ⟨[], []⟩ exBodyLate "e1").2 exBodyEarly "e2").2

/-- A create body whose `title` key is present but holds the empty string. -/
def exBodyEmptyTitle : EventBody :=
  { id := none, title := some "", description := some "d", date := some "b",
    location := some "L", imageUrl := some "u" }

/-- One stored event. -/
def exEvent1 : Event :=
  { id := "e1", title := "T", description := "", date := "d", location := "L", imageUrl := "u" }

/-- A store holding just `exEvent1`. -/
def exStoreOne : Store := ⟨[exEvent1], []⟩

/-- A registration body whose `name` key is present but holds the empty string. -/
def exRegBodyEmptyName : RegBody := { name := some "", email := some "a@b" }

/-- An older registration for `exEvent1`. -/
def exRegOld : Registration :=
  { id := "r1", eventId := "e1", name := "N1", email := "a@b", registeredAt := "a" }

/-- A newer registration for `exEvent1`. -/
def exRegNew : Registration :=
  { id := "r2", eventId := "e1", name := "N2", email := "c@d", registeredAt := "b" }

/-- A store with `exEvent1` and its two registrations in insertion
(chronological) order. -/
def exStoreRegs : Store := ⟨[exEvent1], [exRegOld, exRegNew]⟩

/-- A registration referencing a different event id. -/
def exRegOther : Registration :=
  { id := "r3", eventId := "e2", name := "N3", email := "e@f", registeredAt := "c" }

/-- A store for the cascade claim: one event, one registration of it and one
registration of another event. -/
def exStoreCascade : Store := ⟨[exEvent1], [exRegOld, exRegOther]⟩

/-- An update body supplying a different `id` and a new title, nothing else. -/
def exBodyIdOverride : EventBody :=
  { id := some "zzz", title := some "T2", description := none, date := none,
    location := none, imageUrl := none }

/-! ## Order facts for the sort comparators -/

theorem charListLe_total : ∀ a b : List Char, charListLe a b = true ∨ charListLe b a = true
  | [], _ => Or.inl rfl
  | _ :: _, [] => Or.inr rfl
  | a :: as, b :: bs => by
      by_cases hab : a = b
      · subst hab
        simpa [charListLe] using charListLe_total as bs
      · rcases lt_trichotomy a b with h | h | h
        · left
          simp [charListLe, hab, h]
        · exact absurd h hab
        · right
          have hba : ¬ b = a := fun e => hab e.symm
          simp [charListLe, hba, h]

theorem charListLe_trans : ∀ a b c : List Char,
    charListLe a b = true → charListLe b c = true → charListLe a c = true
  | [], _, _, _, _ => rfl
  | _ :: _, [], _, h1, _ => by simp [charListLe] at h1
  | _ :: _, _ :: _, [], _, h2 => by simp [charListLe] at h2
  | a :: as, b :: bs, c :: cs, h1, h2 => by
      by_cases hab : a = b
      · subst hab
        by_cases hbc : a = c
        · subst hbc
          simp only [charListLe, if_pos rfl] at h1 h2 ⊢
          exact charListLe_trans as bs cs h1 h2
        · simp only [charListLe, if_pos rfl, if_neg hbc] at h1 h2 ⊢
          exact h2
      · by_cases hbc : b = c
        · subst hbc
          simp only [charListLe, if_neg hab] at h1 ⊢
          exact h1
        · simp only [charListLe, if_neg hab, if_neg hbc, decide_eq_true_eq] at h1 h2
          by_cases hac : a = c
          · subst hac
            exact absurd (lt_trans h1 h2) (lt_irrefl a)
          · simp only [charListLe, if_neg hac, decide_eq_true_eq]
            exact lt_trans h1 h2

instance : IsTotal Event (fun a b => strLe a.date b.date = true) :=
  ⟨fun a b => charListLe_total a.date.data b.date.data⟩

instance : IsTrans Event (fun a b => strLe a.date b.date = true) :=
  ⟨fun a b c h1 h2 => charListLe_trans a.date.data b.date.data c.date.data h1 h2⟩

instance : IsTotal Registration (fun a b => strLe b.registeredAt a.registeredAt = true) :=
  ⟨fun a b => charListLe_total b.registeredAt.data a.registeredAt.data⟩

instance : IsTrans Registration (fun a b => strLe b.registeredAt a.registeredAt = true) :=
  ⟨fun a b c h1 h2 =>
    charListLe_trans c.registeredAt.data b.registeredAt.data a.registeredAt.data h2 h1⟩

/-! ## Facts about the split of the upload key derivation -/

theorem splitOnChar_ne_nil (c : Char) : ∀ l : List Char, splitOnChar c l ≠ []
  | [] => by simp [splitOnChar]
  | x :: xs => by
      simp only [splitOnChar]
      split
      · simp
      · split
        · simp
        · simp

theorem splitOnChar_not_mem {c : Char} : ∀ {l : List Char}, c ∉ l → splitOnChar c l = [l]
  | [], _ => rfl
  | x :: xs, h => by
      have hx : ¬ x = c := by
        intro e
        exact h (by simp [e])
      have hxs : c ∉ xs := fun m => h (List.mem_cons_of_mem _ m)
      simp only [splitOnChar, if_neg hx, splitOnChar_not_mem hxs]

theorem two_le_length_splitOnChar {c : Char} :
    ∀ {l : List Char}, c ∈ l → 2 ≤ (splitOnChar c l).length
  | [], h => absurd h (List.not_mem_nil c)
  | x :: xs, h => by
      by_cases hx : x = c
      · have hne := splitOnChar_ne_nil c xs
        have hpos : 0 < (splitOnChar c xs).length := List.length_pos.mpr hne
        simp only [splitOnChar, if_pos hx, List.length_cons]
        omega
      · have hxs : c ∈ xs := by
          rcases List.mem_cons.mp h with h1 | h1
          · exact absurd h1.symm hx
          · exact h1
        have ih := two_le_length_splitOnChar hxs
        simp only [splitOnChar, if_neg hx]
        rcases hsp : splitOnChar c xs with _ | ⟨y, ys⟩
        · exact absurd hsp (splitOnChar_ne_nil c xs)
        · rw [hsp] at ih
          simp only [List.length_cons] at ih ⊢
          omega

theorem getLastD_splitOnChar {c : Char} :
    ∀ (l₁ : List Char) {l₂ : List Char}, c ∉ l₂ →
      (splitOnChar c (l₁ ++ c :: l₂)).getLastD [] = l₂
  | [], l₂, h => by
      simp [splitOnChar, splitOnChar_not_mem h, List.getLastD_cons]
  | x :: l₁, l₂, h => by
      by_cases hx : x = c
      · subst hx
        simp only [List.cons_append, splitOnChar, if_pos rfl, List.getLastD_cons]
        have ih := getLastD_splitOnChar l₁ h
        rw [List.getLastD_eq_getLast?] at ih ⊢
        rcases hsp : splitOnChar x (l₁ ++ x :: l₂) with _ | ⟨y, ys⟩
        · exact absurd hsp (splitOnChar_ne_nil x _)
        · rw [hsp] at ih
          simpa using ih
      · simp only [List.cons_append, splitOnChar, if_neg hx]
        have hmem : c ∈ l₁ ++ c :: l₂ := List.mem_append_right _ (List.mem_cons_self c l₂)
        have hlen := two_le_length_splitOnChar hmem
        have ih := getLastD_splitOnChar l₁ h
        rcases hsp : splitOnChar c (l₁ ++ c :: l₂) with _ | ⟨y, ys⟩
        · exact absurd hsp (splitOnChar_ne_nil c _)
        · rw [hsp] at ih hlen
          rcases ys with _ | ⟨z, zs⟩
          · simp at hlen
          · simpa [List.getLastD_cons] using ih

theorem splitPop_append (l₁ l₂ : List Char) (h : ('.' : Char) ∉ l₂) :
    splitPop (String.mk (l₁ ++ '.' :: l₂)) = String.mk l₂ := by
  unfold splitPop
  rw [show (String.mk (l₁ ++ '.' :: l₂)).data = l₁ ++ '.' :: l₂ from rfl,
    getLastD_splitOnChar l₁ h]

theorem splitPop_no_dot (l : List Char) (h : ('.' : Char) ∉ l) :
    splitPop (String.mk l) = String.mk l := by
  unfold splitPop
  rw [show (String.mk l).data = l from rfl, splitOnChar_not_mem h]
  rfl

theorem mk_beq_empty_eq_false {l : List Char} (h : l ≠ []) :
    (String.mk l == "") = false := by
  refine beq_eq_false_iff_ne.mpr ?_
  intro e
  exact h (congrArg String.data e)

/-! ## The claims -/

/-- C1 (corrected): the list-events route of the db server returns all stored
events ordered by ascending date — a permutation of the store sorted by the
date column — but the in-memory server returns the stored array itself, in
insertion order, with no ordering applied. -/
theorem C1_list_events_order (s : Store) :
    memListEvents s = s.events
    ∧ (dbListEvents s).Perm s.events
    ∧ List.Sorted (fun a b => strLe a.date b.date = true) (dbListEvents s) :=
  ⟨rfl, List.perm_insertionSort _ _, List.sorted_insertionSort _ _⟩

/-- C1 counterexample: creating a later-dated event and then an earlier-dated
one through the in-memory API yields a store whose event listing is not
ordered by ascending date, refuting the claim for the in-memory server. -/
theorem C1_counterexample :
    memListEvents exStoreUnsorted =
      [⟨"e1", "A", "", "b", "L", "u"⟩, ⟨"e2", "B", "", "a", "L", "u"⟩]
    ∧ ¬ List.Sorted (fun a b => strLe a.date b.date = true) (memListEvents exStoreUnsorted) := by
  constructor
  · decide
  · decide

/-- C2 (confirmed): partial update.  On both servers, when the id names no
stored event the update replies 404 and leaves the store unchanged; when it
does, the reply carries the updated event, the store replaces only that
event, the updated event keeps the prior value of every field the body does
not supply (and keeps the stored id), and every other stored event is
untouched. -/
theorem C2_partial_update (s : Store) (id : String) (body : EventBody) :
    (s.events.findIdx? (fun e => e.id == id) = none →
      memUpdateEvent s id body = (.err 404 "Event not found", s))
    ∧ (∀ i, s.events.findIdx? (fun e => e.id == id) = some i →
        ∃ old resp, s.events[i]? = some old
          ∧ memUpdateEvent s id body = (.ok 200 resp, { s with events := s.events.set i resp })
          ∧ resp.id = old.id
          ∧ (body.title = none → resp.title = old.title)
          ∧ (body.description = none → resp.description = old.description)
          ∧ (body.date = none → resp.date = old.date)
          ∧ (body.location = none → resp.location = old.location)
          ∧ (body.imageUrl = none → resp.imageUrl = old.imageUrl)
          ∧ (∀ j, j ≠ i → ((memUpdateEvent s id body).2.events)[j]? = s.events[j]?))
    ∧ (s.events.filter (fun e => e.id == id) = [] →
      dbUpdateEvent s id body = (.err 404 "Event not found", s))
    ∧ (∀ old rest, s.events.filter (fun e => e.id == id) = old :: rest →
        dbUpdateEvent s id body =
          (.ok 200 (coalesceUpdate old body),
            { s with events :=
                s.events.map (fun e => if e.id == id then coalesceUpdate e body else e) })
        ∧ (∀ e, e ∈ s.events → e.id = id →
            (coalesceUpdate e body).id = e.id
            ∧ (body.title = none → (coalesceUpdate e body).title = e.title)
            ∧ (body.description = none → (coalesceUpdate e body).description = e.description)
            ∧ (body.date = none → (coalesceUpdate e body).date = e.date)
            ∧ (body.location = none → (coalesceUpdate e body).location = e.location)
            ∧ (body.imageUrl = none → (coalesceUpdate e body).imageUrl = e.imageUrl))
        ∧ (∀ e, e ∈ s.events → e.id ≠ id → e ∈ (dbUpdateEvent s id body).2.events)) := by
  refine ⟨?_, ?_, ?_, ?_⟩
  · intro h
    simp only [memUpdateEvent, h]
  · intro i h
    obtain ⟨hlt, -⟩ := List.findIdx?_eq_some_iff_findIdx_eq.mp h
    have hgd : s.events.getD i default = s.events[i] := by
      rw [List.getD_eq_getElem?_getD, List.getElem?_eq_getElem hlt]
      rfl
    have hmem : memUpdateEvent s id body =
        (.ok 200 (spreadUpdate (s.events.getD i default) body),
          { s with events := s.events.set i (spreadUpdate (s.events.getD i default) body) }) := by
      simp only [memUpdateEvent, h]
    refine ⟨s.events[i], spreadUpdate (s.events.getD i default) body,
      List.getElem?_eq_getElem hlt, hmem, ?_, ?_, ?_, ?_, ?_, ?_, ?_⟩
    · simp [spreadUpdate, hgd, List.getElem?_eq_getElem hlt]
    · intro hnone
      simp [spreadUpdate, hgd, hnone, List.getElem?_eq_getElem hlt]
    · intro hnone
      simp [spreadUpdate, hgd, hnone, List.getElem?_eq_getElem hlt]
    · intro hnone
      simp [spreadUpdate, hgd, hnone, List.getElem?_eq_getElem hlt]
    · intro hnone
      simp [spreadUpdate, hgd, hnone, List.getElem?_eq_getElem hlt]
    · intro hnone
      simp [spreadUpdate, hgd, hnone, List.getElem?_eq_getElem hlt]
    · intro j hj
      rw [hmem]
      exact List.getElem?_set_ne (Ne.symm hj)
  · intro h
    simp only [dbUpdateEvent, h]
  · intro old rest hfilter
    refine ⟨?_, ?_, ?_⟩
    · simp only [dbUpdateEvent, hfilter]
    · intro e _ _
      refine ⟨rfl, ?_, ?_, ?_, ?_, ?_⟩ <;> intro hnone <;> simp [coalesceUpdate, hnone]
    · intro e he hne
      have hfix : (if e.id == id then coalesceUpdate e body else e) = e := by
        rw [if_neg]
        intro hb
        exact hne (beq_iff_eq.mp hb)
      simp only [dbUpdateEvent, hfilter]
      exact hfix ▸ List.mem_map_of_mem _ he

/-- C3 (corrected): event creation.  On both servers, when each of title,
date, location and imageUrl is present and non-empty the create succeeds with
201, the event carries the freshly generated id, the supplied field values,
and a description defaulting to the empty string when omitted, and the event
is appended to the store; when any of the four is missing or empty the create
fails with 400 and the store is unchanged. -/
theorem C3_create_event (s : Store) (body : EventBody) (newId : String) :
    ((falsy body.title || falsy body.date || falsy body.location || falsy body.imageUrl) = true →
      memCreateEvent s body newId =
        (.err 400 "Title, date, location, and imageUrl are required", s)
      ∧ dbCreateEvent s body newId =
        (.err 400 "Title, date, location, and imageUrl are required", s))
    ∧ ((falsy body.title || falsy body.date || falsy body.location || falsy body.imageUrl) = false →
      ∃ e, memCreateEvent s body newId = (.ok 201 e, { s with events := s.events ++ [e] })
        ∧ dbCreateEvent s body newId = (.ok 201 e, { s with events := s.events ++ [e] })
        ∧ e.id = newId
        ∧ (body.description = none → e.description = "")
        ∧ (∀ t, body.title = some t → e.title = t)
        ∧ (∀ d, body.date = some d → e.date = d)
        ∧ (∀ l, body.location = some l → e.location = l)
        ∧ (∀ u, body.imageUrl = some u → e.imageUrl = u)) := by
  constructor
  · intro h
    constructor
    · simp [memCreateEvent, h]
    · simp [dbCreateEvent, h]
  · intro h
    refine ⟨{ id := newId,
              title := body.title.getD "",
              description := body.description.getD "",
              date := body.date.getD "",
              location := body.location.getD "",
              imageUrl := body.imageUrl.getD "" }, ?_, ?_, rfl, ?_, ?_, ?_, ?_, ?_⟩
    · simp [memCreateEvent, h]
    · simp [dbCreateEvent, h]
    · intro hnone
      simp [hnone]
    · intro t ht
      simp [ht]
    · intro d hd
      simp [hd]
    · intro l hl
      simp [hl]
    · intro u hu
      simp [hu]

/-- C3 counterexample: a body whose four required keys are all present but
whose title is the empty string is rejected with 400 by both servers, though
the claim requires a 201 success whenever the four fields are present. -/
theorem C3_counterexample :
    exBodyEmptyTitle.title.isSome = true
    ∧ exBodyEmptyTitle.date.isSome = true
    ∧ exBodyEmptyTitle.location.isSome = true
    ∧ exBodyEmptyTitle.imageUrl.isSome = true
    ∧ memCreateEvent ⟨[], []⟩ exBodyEmptyTitle "f1" =
        (.err 400 "Title, date, location, and imageUrl are required", ⟨[], []⟩)
    ∧ dbCreateEvent ⟨[], []⟩ exBodyEmptyTitle "f1" =
        (.err 400 "Title, date, location, and imageUrl are required", ⟨[], []⟩) := by
  decide

/-- C4 (corrected): registration creation.  In-memory server: a nonexistent
event id fails 404 whatever the body; for an existing event, a missing or
empty name or email fails 400, and otherwise a registration referencing that
event is appended and returned with 201.  Db server: a missing or empty name
or email fails 400 first; with both present and non-empty, a nonexistent
event id fails 404 and otherwise the registration is appended and returned
with 201.  Every failure leaves the store unchanged. -/
theorem C4_register (s : Store) (id : String) (body : RegBody) (newId now : String) :
    (s.events.find? (fun e => e.id == id) = none →
      memRegister s id body newId now = (.err 404 "Event not found", s))
    ∧ (∀ ev, s.events.find? (fun e => e.id == id) = some ev →
        ((falsy body.name || falsy body.email) = true →
          memRegister s id body newId now = (.err 400 "Name and email are required", s))
        ∧ ((falsy body.name || falsy body.email) = false →
          ∃ r, memRegister s id body newId now =
              (.ok 201 r, { s with registrations := s.registrations ++ [r] })
            ∧ r.id = newId ∧ r.eventId = ev.id ∧ ev.id = id))
    ∧ ((falsy body.name || falsy body.email) = true →
        dbRegister s id body newId now = (.err 400 "Name and email are required", s))
    ∧ ((falsy body.name || falsy body.email) = false →
        (s.events.filter (fun e => e.id == id) = [] →
          dbRegister s id body newId now = (.err 404 "Event not found", s))
        ∧ ((s.events.filter (fun e => e.id == id)).isEmpty = false →
          ∃ r, dbRegister s id body newId now =
              (.ok 201 r, { s with registrations := s.registrations ++ [r] })
            ∧ r.id = newId ∧ r.eventId = id)) := by
  refine ⟨?_, ?_, ?_, ?_⟩
  · intro h
    simp only [memRegister, h]
  · intro ev h
    have hev : ev.id = id := by
      have hp := List.find?_some h
      simpa using hp
    constructor
    · intro hval
      simp [memRegister, h, hval]
    · intro hval
      refine ⟨{ id := newId,
                eventId := ev.id,
                name := body.name.getD "",
                email := body.email.getD "",
                registeredAt := now }, ?_, rfl, rfl, hev⟩
      simp [memRegister, h, hval]
  · intro hval
    simp [dbRegister, hval]
  · intro hval
    constructor
    · intro hfil
      simp [dbRegister, hval, hfil]
    · intro hne
      refine ⟨{ id := newId,
                eventId := id,
                name := body.name.getD "",
                email := body.email.getD "",
                registeredAt := now }, ?_, rfl, rfl⟩
      simp [dbRegister, hval, hne]

/-- C4 counterexample: for a stored event and a body whose name key is present
(but empty) and whose email is present and non-empty, both servers reply 400
and store nothing, though the claim — under which only an absent name or
email may fail with 400 — requires a 201 success here. -/
theorem C4_counterexample :
    (exStoreOne.events.find? (fun e => e.id == "e1")).isSome = true
    ∧ exRegBodyEmptyName.name.isSome = true
    ∧ exRegBodyEmptyName.email.isSome = true
    ∧ memRegister exStoreOne "e1" exRegBodyEmptyName "r1" "t1" =
        (.err 400 "Name and email are required", exStoreOne)
    ∧ dbRegister exStoreOne "e1" exRegBodyEmptyName "r1" "t1" =
        (.err 400 "Name and email are required", exStoreOne) := by
  decide

/-- C5 (corrected): listing registrations of an event.  Both servers fail 404
on a nonexistent event id.  For an existing event the db server returns
exactly the registrations whose event reference equals the id, as a
permutation sorted newest-first by registration timestamp; the in-memory
server returns exactly those registrations but in insertion order, with no
ordering applied. -/
theorem C5_list_registrations (s : Store) (id : String) :
    (s.events.find? (fun e => e.id == id) = none →
      memListRegistrations s id = .err 404 "Event not found"
      ∧ dbListRegistrations s id = .err 404 "Event not found")
    ∧ (∀ ev, s.events.find? (fun e => e.id == id) = some ev →
        memListRegistrations s id =
          .ok 200 (s.registrations.filter (fun r => r.eventId == ev.id))
        ∧ ∃ l, dbListRegistrations s id = .ok 200 l
            ∧ l.Perm (s.registrations.filter (fun r => r.eventId == id))
            ∧ List.Sorted (fun a b => strLe b.registeredAt a.registeredAt = true) l) := by
  constructor
  · intro h
    have hfil : s.events.filter (fun e => e.id == id) = [] := by
      rw [List.filter_eq_nil_iff]
      intro a ha
      exact List.find?_eq_none.mp h a ha
    constructor
    · simp only [memListRegistrations, h]
    · simp [dbListRegistrations, hfil]
  · intro ev h
    have hmem : ev ∈ s.events := List.mem_of_find?_eq_some h
    have hp := List.find?_some h
    have hne : (s.events.filter (fun e => e.id == id)).isEmpty = false := by
      rw [List.isEmpty_eq_false]
      intro hfil
      exact List.filter_eq_nil_iff.mp hfil ev hmem hp
    constructor
    · simp only [memListRegistrations, h]
    · refine ⟨List.insertionSort (fun a b => strLe b.registeredAt a.registeredAt = true)
          (s.registrations.filter (fun r => r.eventId == id)), ?_,
        List.perm_insertionSort _ _, List.sorted_insertionSort _ _⟩
      simp [dbListRegistrations, hne]

/-- C5 counterexample: with two registrations of the same event stored in
chronological order, the in-memory listing returns them oldest-first — the
returned list is not ordered newest-first by timestamp as the claim states. -/
theorem C5_counterexample :
    memListRegistrations exStoreRegs "e1" = .ok 200 [exRegOld, exRegNew]
    ∧ strLe exRegOld.registeredAt exRegNew.registeredAt = true
    ∧ exRegOld.registeredAt ≠ exRegNew.registeredAt
    ∧ ¬ List.Sorted (fun a b => strLe b.registeredAt a.registeredAt = true)
        [exRegOld, exRegNew] := by
  decide

/-- C6 (confirmed): deleting a stored event under the schema's cascade keeps a
registration if and only if it was stored and its event reference differs
from the deleted event's id — all of that event's registrations are removed
and no registration of any other event is. -/
theorem C6_cascade_delete (s : Store) (ev : Event) (h : ev ∈ s.events) (r : Registration) :
    r ∈ (dbDeleteEvent s ev.id).registrations ↔
      r ∈ s.registrations ∧ r.eventId ≠ ev.id := by
  simp only [dbDeleteEvent, List.mem_filter]
  constructor
  · rintro ⟨hr, hany⟩
    refine ⟨hr, ?_⟩
    intro heq
    rw [Bool.not_eq_true', List.any_eq_false] at hany
    have hevf : ev ∈ s.events.filter (fun e => e.id == ev.id) := by
      rw [List.mem_filter]
      exact ⟨h, beq_iff_eq.mpr rfl⟩
    exact hany ev hevf (by rw [heq]; exact beq_iff_eq.mpr rfl)
  · rintro ⟨hr, hne⟩
    refine ⟨hr, ?_⟩
    rw [Bool.not_eq_true', List.any_eq_false]
    intro e he
    rw [List.mem_filter] at he
    have hid : e.id = ev.id := beq_iff_eq.mp he.2
    intro hb
    exact hne ((beq_iff_eq.mp hb).symm.trans hid)

/-- C6 witness: in a concrete store with one event, one registration of it
and one registration of another event, the cascade characterisation holds for
the other event's registration. -/
theorem C6_witness :
    exRegOther ∈ (dbDeleteEvent exStoreCascade exEvent1.id).registrations ↔
      exRegOther ∈ exStoreCascade.registrations ∧ exRegOther.eventId ≠ exEvent1.id :=
  C6_cascade_delete exStoreCascade exEvent1 (by decide) exRegOther

/-- C7 (confirmed): for a non-empty file name containing a dot and a non-empty
file type, the issued key is `uploads/` ++ the fresh identifier ++ `.` ++ the
part of the file name after its last dot, the write credential is scoped to
exactly that key with a 300-second (5-minute) expiry and the requested
content type, and the public URL is `https://` ++ domain ++ `/` ++ key. -/
theorem C7_presigned_url (bucket domain freshId fileType : String) (l₁ l₂ : List Char)
    (hft : fileType ≠ "") (hdot : ('.' : Char) ∉ l₂) :
    getPresignedUrl bucket domain (some (String.mk (l₁ ++ '.' :: l₂))) (some fileType) freshId =
      .ok 200
        { uploadUrl :=
            { bucket := bucket, key := "uploads/" ++ freshId ++ "." ++ String.mk l₂,
              contentType := fileType, expiresIn := 300 },
          publicUrl := "https://" ++ domain ++ "/" ++
            ("uploads/" ++ freshId ++ "." ++ String.mk l₂),
          key := "uploads/" ++ freshId ++ "." ++ String.mk l₂ } := by
  have hfn : falsy (some (String.mk (l₁ ++ '.' :: l₂))) = false := by
    apply mk_beq_empty_eq_false
    intro e
    rcases l₁ with _ | ⟨x, xs⟩ <;> simp at e
  have hty : falsy (some fileType) = false := beq_eq_false_iff_ne.mpr hft
  simp [getPresignedUrl, hfn, hty, splitPop_append l₁ l₂ hdot]

/-- C7 witness: the characterisation evaluated for the file name `pic.png`,
type `image/png`, fresh id `u1`. -/
theorem C7_witness :
    getPresignedUrl "b1" "cdn.example.com"
        (some (String.mk (['p', 'i', 'c'] ++ '.' :: ['p', 'n', 'g'])))
        (some "image/png") "u1" =
      .ok 200
        { uploadUrl :=
            { bucket := "b1", key := "uploads/" ++ "u1" ++ "." ++ String.mk ['p', 'n', 'g'],
              contentType := "image/png", expiresIn := 300 },
          publicUrl := "https://" ++ "cdn.example.com" ++ "/" ++
            ("uploads/" ++ "u1" ++ "." ++ String.mk ['p', 'n', 'g']),
          key := "uploads/" ++ "u1" ++ "." ++ String.mk ['p', 'n', 'g'] } :=
  C7_presigned_url "b1" "cdn.example.com" "u1" "image/png" ['p', 'i', 'c'] ['p', 'n', 'g']
    (by decide) (by decide)

/-- Registrations are untouched by the in-memory update route. -/
theorem memUpdateEvent_registrations (s : Store) (id : String) (body : EventBody) :
    (memUpdateEvent s id body).2.registrations = s.registrations := by
  unfold memUpdateEvent
  split <;> rfl

/-- Registrations are untouched by the db update route. -/
theorem dbUpdateEvent_registrations (s : Store) (id : String) (body : EventBody) :
    (dbUpdateEvent s id body).2.registrations = s.registrations := by
  unfold dbUpdateEvent
  split <;> rfl

/-- Registrations are untouched by the in-memory create route. -/
theorem memCreateEvent_registrations (s : Store) (body : EventBody) (newId : String) :
    (memCreateEvent s body newId).2.registrations = s.registrations := by
  unfold memCreateEvent
  split <;> rfl

/-- Registrations are untouched by the db create route. -/
theorem dbCreateEvent_registrations (s : Store) (body : EventBody) (newId : String) :
    (dbCreateEvent s body newId).2.registrations = s.registrations := by
  unfold dbCreateEvent
  split <;> rfl

/-- The in-memory register route at most appends to the registrations. -/
theorem memRegister_registrations (s : Store) (id : String) (body : RegBody)
    (newId now : String) :
    ∃ tail, (memRegister s id body newId now).2.registrations = s.registrations ++ tail := by
  unfold memRegister
  split
  · exact ⟨[], (List.append_nil _).symm⟩
  · split
    · exact ⟨[], (List.append_nil _).symm⟩
    · exact ⟨_, rfl⟩

/-- The db register route at most appends to the registrations. -/
theorem dbRegister_registrations (s : Store) (id : String) (body : RegBody)
    (newId now : String) :
    ∃ tail, (dbRegister s id body newId now).2.registrations = s.registrations ++ tail := by
  unfold dbRegister
  split
  · exact ⟨[], (List.append_nil _).symm⟩
  · split
    · exact ⟨[], (List.append_nil _).symm⟩
    · exact ⟨_, rfl⟩

/-- C8 (confirmed): no operation of either server removes or rewrites an
existing registration — after any request the prior registrations list is an
unchanged initial segment of the new one — and in particular updating an
event leaves the registrations exactly as they were. -/
theorem C8_registrations_immutable (op : ApiOp) (s : Store) :
    (∃ tail, (memApply op s).registrations = s.registrations ++ tail)
    ∧ (∃ tail, (dbApply op s).registrations = s.registrations ++ tail)
    ∧ (∀ id body, (memApply (.updateEvent id body) s).registrations = s.registrations
        ∧ (dbApply (.updateEvent id body) s).registrations = s.registrations) := by
  refine ⟨?_, ?_, ?_⟩
  · cases op with
    | listEvents => exact ⟨[], (List.append_nil _).symm⟩
    | getEvent id => exact ⟨[], (List.append_nil _).symm⟩
    | registerFor id body newId now => exact memRegister_registrations s id body newId now
    | createEvent body newId =>
        exact ⟨[], by rw [List.append_nil]; exact memCreateEvent_registrations s body newId⟩
    | updateEvent id body =>
        exact ⟨[], by rw [List.append_nil]; exact memUpdateEvent_registrations s id body⟩
    | listRegistrations id => exact ⟨[], (List.append_nil _).symm⟩
    | presign fileName fileType freshId => exact ⟨[], (List.append_nil _).symm⟩
  · cases op with
    | listEvents => exact ⟨[], (List.append_nil _).symm⟩
    | getEvent id => exact ⟨[], (List.append_nil _).symm⟩
    | registerFor id body newId now => exact dbRegister_registrations s id body newId now
    | createEvent body newId =>
        exact ⟨[], by rw [List.append_nil]; exact dbCreateEvent_registrations s body newId⟩
    | updateEvent id body =>
        exact ⟨[], by rw [List.append_nil]; exact dbUpdateEvent_registrations s id body⟩
    | listRegistrations id => exact ⟨[], (List.append_nil _).symm⟩
    | presign fileName fileType freshId => exact ⟨[], (List.append_nil _).symm⟩
  · intro id body
    exact ⟨memUpdateEvent_registrations s id body, dbUpdateEvent_registrations s id body⟩

/-- C9 (confirmed): updating an existing event preserves the stored id on
both servers even when the body supplies an id of its own — the in-memory
handler reassigns the old id after the spread, and the db handler never reads
the body's id. -/
theorem C9_update_preserves_id (s : Store) (id : String) (body : EventBody) (i : Nat)
    (h : s.events.findIdx? (fun e => e.id == id) = some i) :
    (((memUpdateEvent s id body).2.events).getD i default).id = (s.events.getD i default).id
    ∧ ((dbUpdateEvent s id body).2.events).map (fun e => e.id) =
      s.events.map (fun e => e.id) := by
  obtain ⟨hlt, -⟩ := List.findIdx?_eq_some_iff_findIdx_eq.mp h
  constructor
  · have h2 : (memUpdateEvent s id body).2.events =
        s.events.set i (spreadUpdate (s.events.getD i default) body) := by
      simp only [memUpdateEvent, h]
    rw [h2, List.getD_eq_getElem?_getD, List.getElem?_set_self hlt]
    simp [spreadUpdate]
  · cases hfil : s.events.filter (fun e => e.id == id) with
    | nil => simp only [dbUpdateEvent, hfil]
    | cons old rest =>
        have h2 : (dbUpdateEvent s id body).2.events =
            s.events.map (fun e => if e.id == id then coalesceUpdate e body else e) := by
          simp only [dbUpdateEvent, hfil]
        rw [h2, List.map_map]
        refine List.map_congr_left ?_
        intro e _
        by_cases hc : (e.id == id) = true
        · simp [Function.comp, hc, coalesceUpdate]
        · simp [Function.comp, hc]

/-- C9 witness: updating the one stored event with a body that supplies the
id `zzz` keeps the stored id. -/
theorem C9_witness :
    (((memUpdateEvent exStoreOne "e1" exBodyIdOverride).2.events).getD 0 default).id =
      ((exStoreOne.events).getD 0 default).id
    ∧ ((dbUpdateEvent exStoreOne "e1" exBodyIdOverride).2.events).map (fun e => e.id) =
      exStoreOne.events.map (fun e => e.id) :=
  C9_update_preserves_id exStoreOne "e1" exBodyIdOverride 0 (by decide)

/-- C10 (confirmed): a file name holding no dot is not rejected; the split
yields the whole name, so the key is `uploads/` ++ fresh id ++ `.` ++ the
entire file name. -/
theorem C10_presign_dotless (bucket domain freshId fileType : String) (fname : List Char)
    (h0 : fname ≠ []) (hdot : ('.' : Char) ∉ fname) (hft : fileType ≠ "") :
    getPresignedUrl bucket domain (some (String.mk fname)) (some fileType) freshId =
      .ok 200
        { uploadUrl :=
            { bucket := bucket, key := "uploads/" ++ freshId ++ "." ++ String.mk fname,
              contentType := fileType, expiresIn := 300 },
          publicUrl := "https://" ++ domain ++ "/" ++
            ("uploads/" ++ freshId ++ "." ++ String.mk fname),
          key := "uploads/" ++ freshId ++ "." ++ String.mk fname } := by
  have hfn : falsy (some (String.mk fname)) = false := mk_beq_empty_eq_false h0
  have hty : falsy (some fileType) = false := beq_eq_false_iff_ne.mpr hft
  simp [getPresignedUrl, hfn, hty, splitPop_no_dot fname hdot]

/-- C10 witness: the dotless file name `doc` yields the key
`uploads/u2.doc`. -/
theorem C10_witness :
    getPresignedUrl "b1" "cdn.example.com" (some (String.mk ['d', 'o', 'c']))
        (some "text/plain") "u2" =
      .ok 200
        { uploadUrl :=
            { bucket := "b1", key := "uploads/" ++ "u2" ++ "." ++ String.mk ['d', 'o', 'c'],
              contentType := "text/plain", expiresIn := 300 },
          publicUrl := "https://" ++ "cdn.example.com" ++ "/" ++
            ("uploads/" ++ "u2" ++ "." ++ String.mk ['d', 'o', 'c']),
          key := "uploads/" ++ "u2" ++ "." ++ String.mk ['d', 'o', 'c'] } :=
  C10_presign_dotless "b1" "cdn.example.com" "u2" "text/plain" ['d', 'o', 'c']
    (by decide) (by decide) (by decide)

end EventManage
